import Mathlib

/-!
# Verification of the docgen Document Structure Engine

Shallow embedding, in Lean 4, of the chapter / section / figure numbering
and renumbering operations of the `gomcpgo/docgen` repository
(`pkg/document/manager.go`, `pkg/document/numbering.go`,
`pkg/types/types.go`), together with theorems settling the claims of the
natural-language specification against this code.

Go `int` values are modelled as `Int`; Go slices as `List`; Go maps as
association lists with overwrite-on-insert semantics; Go functions that
return `error` are modelled with `Option`/sum-like result types.  A Go
runtime panic (slice index out of range) is modelled as a distinguished
result constructor.
-/

namespace Docgen

/-- A section of a chapter.  `number` is the Go `types.SectionNumber`
(`[]int`), whose first component is the owning chapter's number. -/
structure Sec where
  number : List Int
  title : String
  content : String
  deriving Repr, DecidableEq

/-- A figure of a chapter (`types.Figure`): identifier string, owning
chapter number, per-chapter sequence number and caption. -/
structure Figure where
  id : String
  chapter : Int
  sequence : Int
  caption : String
  deriving Repr, DecidableEq

/-- A chapter as recorded in the document manifest: its number and title
(`types.Chapter`, restricted to the fields the chapter-topology
operations read or write). -/
structure Chapter where
  number : Int
  title : String
  deriving Repr, DecidableEq

/-- Per-chapter counts held in `Manifest.ChapterCounts`
(`types.ChapterCount`). -/
structure ChapterCount where
  sections : Int
  figures : Int
  tables : Int
  deriving Repr, DecidableEq

/-- `types.GenerateFigureID` / the `fmt.Sprintf("fig-%d.%d", ...)` calls in
`manager.go`: the identifier string `fig-{chapter}.{sequence}`. -/
def genFigureID (chapter sequence : Int) : String :=
  "fig-" ++ toString chapter ++ "." ++ toString sequence

/-! ## Section number generation (`Manager.generateNextSectionNumber`) -/

/-- The inner loop of `Manager.generateNextSectionNumber`
(`manager.go:413-417`): `for i := 0; i < level && i < len(parts); i++`,
updating `maxNumbers[i]` to `parts[i]` whenever `parts[i] > maxNumbers[i]`.
The accumulator has length `level`, so recursing on both lists at once
walks exactly the indices `i < level` with `i < len(parts)`. -/
def updMax : List Int → List Int → List Int
  | [], _ => []
  | a :: as, [] => a :: as
  | a :: as, p :: ps => (if p > a then p else a) :: updMax as ps

/-- `Manager.generateNextSectionNumber` (`manager.go:404-432`).
`maxNumbers` starts as `level` zeroes; every section whose number has
`len(parts) >= level` contributes via the inner loop; then
`maxNumbers[level-1]++` and the result is `[chapterNum, maxNumbers...]`. -/
def generateNextSectionNumber (chapterNum : Int) (sections : List (List Int))
    (level : Nat) : List Int :=
  let maxNumbers :=
    sections.foldl
      (fun acc parts => if parts.length ≥ level then updMax acc parts else acc)
      (List.replicate level 0)
  let maxNumbers := maxNumbers.set (level - 1) (maxNumbers.getD (level - 1) 0 + 1)
  chapterNum :: maxNumbers

/-! ## Chapter topology (`Manager.AddChapter`, `Manager.MoveChapter`,
`Manager.renumberChapters`) -/

/-- Go map assignment `counts[k] = v`: replace the entry with key `k`, or
append a fresh one.  Models `manifest.ChapterCounts[chapterNum] = ...`. -/
def setCount : List (Int × ChapterCount) → Int → ChapterCount →
    List (Int × ChapterCount)
  | [], k, v => [(k, v)]
  | (k', v') :: rest, k, v =>
      if k' = k then (k, v) :: rest else (k', v') :: setCount rest k v

/-- Go map lookup `counts[k]`. -/
def lookupCount : List (Int × ChapterCount) → Int → Option ChapterCount
  | [], _ => none
  | (k', v') :: rest, k => if k' = k then some v' else lookupCount rest k

/-- The document state the chapter-topology operations act on: the
manifest's ordered chapter list and chapter-count map, plus the set of
chapter storage directories on disk (as the list of their numbers). -/
structure DocState where
  chapters : List Chapter
  counts : List (Int × ChapterCount)
  dirs : List Int
  deriving Repr, DecidableEq

/-- Net effect of `Manager.renumberChapters` (`numbering.go:14-51`) on the
set of chapter directories: if `offset == 0` it returns immediately;
otherwise each directory numbered `>= startFrom` is renamed to its number
plus `offset` (the source orders the renames highest-first for inserts and
lowest-first for deletes only to avoid collisions; the net effect on the
directory set is this map).  The manifest is only read, never written. -/
def renumberDirs (dirs : List Int) (startFrom offset : Int) : List Int :=
  if offset = 0 then dirs
  else dirs.map (fun d => if d ≥ startFrom then d + offset else d)

/-- `Manager.AddChapter` (`manager.go:123-182`), validation and storage
errors aside.  With a `position`, `chapterNum := *position` and
`renumberChapters(docID, manifest, chapterNum, 1)` renames the directories;
without one, `chapterNum := len(manifest.Document.Chapters) + 1`.  A fresh
chapter directory is created, the new chapter is appended to
`manifest.Document.Chapters`, and `manifest.ChapterCounts[chapterNum]` is
assigned the zero count.  Returns the updated state and the new number. -/
def addChapter (st : DocState) (title : String) (position : Option Int) :
    DocState × Int :=
  let chapterNum :=
    match position with
    | some p => p
    | none => (st.chapters.length : Int) + 1
  let dirs :=
    match position with
    | some p => renumberDirs st.dirs p 1
    | none => st.dirs
  ({ chapters := st.chapters ++ [⟨chapterNum, title⟩]
     counts := setCount st.counts chapterNum ⟨0, 0, 0⟩
     dirs := dirs ++ [chapterNum] }, chapterNum)

/-- Result of `Manager.MoveChapter`: success, a returned error, or a Go
runtime panic (slice index out of range). -/
inductive MoveResult where
  | ok (st : DocState)
  | err
  | indexOutOfRange
  deriving Repr, DecidableEq

/-- `Manager.MoveChapter` (`manager.go:557-609`).  It rejects positions
greater than the chapter count (but not positions `< 1`), converts to
0-based indices, returns unchanged when they coincide, then evaluates
`manifest.Document.Chapters[fromIdx]` — a runtime panic when `fromIdx < 0`
— removes the chapter, reinserts it (`chapters[:toIdx]` panics when
`toIdx < 0`), and finally calls `renumberChapters(docID, manifest, 0, 0)`,
whose offset of 0 makes it return immediately.  The chapters' `Number`
fields are never touched. -/
def moveChapter (st : DocState) (fromPos toPos : Int) : MoveResult :=
  if fromPos > (st.chapters.length : Int) ∨ toPos > (st.chapters.length : Int) then
    .err
  else
    let fromIdx := fromPos - 1
    let toIdx := toPos - 1
    if fromIdx = toIdx then .ok st
    else if fromIdx < 0 then .indexOutOfRange
    else
      let f := fromIdx.toNat
      let chapterToMove := st.chapters.getD f ⟨0, ""⟩
      let removed := st.chapters.take f ++ st.chapters.drop (f + 1)
      if toIdx ≥ (removed.length : Int) then
        .ok { st with chapters := removed ++ [chapterToMove]
                      dirs := renumberDirs st.dirs 0 0 }
      else if toIdx < 0 then .indexOutOfRange
      else
        .ok { st with
                chapters := removed.take toIdx.toNat ++ chapterToMove ::
                  removed.drop toIdx.toNat
                dirs := renumberDirs st.dirs 0 0 }

/-! ## Figure operations (`Manager.AddImage`, `Manager.DeleteImage`,
`generateFigureSequence`, `Manager.parseFigureIDChapter`) -/

/-- Digit-string to number, the happy path of Go's `strconv.Atoi` (the
identifiers parsed here are digit-only; `Atoi`'s sign handling is never
exercised by them).  Empty or non-digit input is an error. -/
def goAtoi (cs : List Char) : Option Int :=
  if cs = [] then none
  else
    cs.foldl
      (fun acc c =>
        match acc with
        | none => none
        | some n => if c.isDigit then some (n * 10 + ((c.toNat : Int) - 48)) else none)
      (some 0)

/-- Go `strings.Split` on a single separator character. -/
def splitOnChar (sep : Char) : List Char → List (List Char)
  | [] => [[]]
  | c :: cs =>
      if c = sep then [] :: splitOnChar sep cs
      else
        match splitOnChar sep cs with
        | [] => [[c]]
        | p :: ps => (c :: p) :: ps

/-- `Manager.parseFigureIDChapter` (`manager.go:769-786`): require the
`fig-` prefix, split the remainder on `.` into exactly two parts, and
parse the first as the chapter number. -/
def parseFigureIDChapter (id : String) : Option Int :=
  match id.toList with
  | 'f' :: 'i' :: 'g' :: '-' :: rest =>
      match splitOnChar '.' rest with
      | [a, _] => goAtoi a
      | _ => none
  | _ => none

/-- `Manager.AddImage` (`manager.go:612-668`), validation and storage
aside: the new figure's sequence is `len(chapter.Figures) + 1` — not the
maximum existing sequence plus one — its identifier is generated from
`(chapterNum, sequence)`, and it is appended.  Returns the updated figure
list and the new figure's identifier. -/
def addImage (chapterNum : Int) (figs : List Figure) (caption : String) :
    List Figure × String :=
  let sequence : Int := (figs.length : Int) + 1
  let figureID := genFigureID chapterNum sequence
  (figs ++ [⟨figureID, chapterNum, sequence, caption⟩], figureID)

/-- `generateFigureSequence` (`numbering.go:77-85`): the maximum existing
sequence plus one, or 1 when there are none.  (Defined in the repository
but never called by `Manager.AddImage`.) -/
def generateFigureSequence (existing : List Figure) : Int :=
  (existing.foldl (fun m f => if f.sequence > m then f.sequence else m) 0) + 1

/-- The find-and-remove loop of `Manager.DeleteImage`
(`manager.go:734-749`): the first figure whose identifier matches is
removed and its sequence recorded; `none` when no figure matches. -/
def removeFigure : List Figure → String → Option (Int × List Figure)
  | [], _ => none
  | f :: fs, fid =>
      if f.id = fid then some (f.sequence, fs)
      else (removeFigure fs fid).map (fun r => (r.1, f :: r.2))

/-- The renumbering loop of `Manager.DeleteImage` (`manager.go:751-758`):
every remaining figure with sequence greater than the deleted one has its
sequence decremented and its identifier regenerated as
`fig-{chapterNum}.{sequence}`. -/
def renumberFigsAfterDelete (chapterNum delSeq : Int) (figs : List Figure) :
    List Figure :=
  figs.map (fun f =>
    if f.sequence > delSeq then
      { f with sequence := f.sequence - 1
               id := genFigureID chapterNum (f.sequence - 1) }
    else f)

/-- `Manager.DeleteImage` (`manager.go:716-766`): parse the chapter number
out of the identifier (the chapter whose figure list `figs` is then
loaded), remove the first matching figure, and renumber the remainder. -/
def deleteImage (figs : List Figure) (figureID : String) : Option (List Figure) :=
  match parseFigureIDChapter figureID with
  | none => none
  | some chapterNum =>
      match removeFigure figs figureID with
      | none => none
      | some (delSeq, rest) => some (renumberFigsAfterDelete chapterNum delSeq rest)

/-! ## Section deletion (`Manager.DeleteSection`,
`Manager.renumberSectionsAfterDeletion`, `Manager.sectionNumbersEqual`) -/

/-- `Manager.sectionNumbersEqual` (`manager.go:474-484`): equal length and
pointwise equal values. -/
def sectionNumbersEqual : List Int → List Int → Bool
  | [], [] => true
  | _ :: _, [] => false
  | [], _ :: _ => false
  | a :: as, b :: bs => a == b && sectionNumbersEqual as bs

/-- The find-and-remove loop of `Manager.DeleteSection`
(`manager.go:499-512`): the first section whose number matches is removed;
`none` when no section matches. -/
def removeSection : List Sec → List Int → Option (List Sec)
  | [], _ => none
  | s :: ss, n =>
      if sectionNumbersEqual s.number n then some ss
      else (removeSection ss n).map (fun r => s :: r)

/-- The prefix check of `Manager.renumberSectionsAfterDeletion`
(`manager.go:538-544`): `for j := 1; j < deletedLevel; j++`, requiring
`j < len(section.Number)` and `section.Number[j] == deletedSectionNum[j]`.
`prefixLoop d n k` performs the checks for `j = 1 .. k`. -/
def prefixLoop (d n : List Int) : Nat → Bool
  | 0 => true
  | k + 1 =>
      prefixLoop d n k &&
        (decide (k + 1 < n.length) && (n.getD (k + 1) 0 == d.getD (k + 1) 0))

/-- The per-section body of `Manager.renumberSectionsAfterDeletion`
(`manager.go:534-553`), on the section's number `n`.  In the source,
`deletedLevel := len(deletedSectionNum) - 1` and
`chapterNum := deletedSectionNum[0]` are locals; the j-loop runs for
`1 ≤ j < deletedLevel`, i.e. `deletedLevel - 1` checks.  A section is
decremented at position `deletedLevel` exactly when it is longer than
`deletedLevel`, matches the deleted number's chapter and prefix, and its
value at `deletedLevel` exceeds the deleted one's. -/
def renumberNumber (deleted n : List Int) : List Int :=
  if n.length > deleted.length - 1 ∧ n.getD 0 0 = deleted.getD 0 0 then
    if prefixLoop deleted n (deleted.length - 1 - 1) ∧
        n.length > deleted.length - 1 then
      if n.getD (deleted.length - 1) 0 > deleted.getD (deleted.length - 1) 0 then
        n.set (deleted.length - 1) (n.getD (deleted.length - 1) 0 - 1)
      else n
    else n
  else n

/-- `Manager.renumberSectionsAfterDeletion` (`manager.go:526-554`): returns
unchanged when the deleted number has fewer than two components, otherwise
rewrites every remaining section's number via `renumberNumber`. -/
def renumberSectionsAfterDeletion (secs : List Sec) (deleted : List Int) :
    List Sec :=
  if deleted.length < 2 then secs
  else secs.map (fun s => { s with number := renumberNumber deleted s.number })

/-- `Manager.DeleteSection` (`manager.go:487-523`), validation and storage
aside: remove the first section whose number equals the target, then
renumber the remaining sections. -/
def deleteSection (secs : List Sec) (n : List Int) : Option (List Sec) :=
  match removeSection secs n with
  | none => none
  | some rest => some (renumberSectionsAfterDeletion rest n)

/-- The spec's density invariant: the chapter numbers recorded in the
manifest, in list order, are exactly `1, 2, ..., N`. -/
def denseAscending (nums : List Int) : Prop :=
  nums = (List.range nums.length).map (fun i => (i : Int) + 1)

instance (nums : List Int) : Decidable (denseAscending nums) := by
  unfold denseAscending; infer_instance

/-! ## Markdown rebuilder (`Manager.RebuildChapterMarkdown`) -/

/-- A section as read by the markdown rebuilder: number, title, heading
level and persisted content. -/
structure RSec where
  number : List Int
  title : String
  level : Nat
  content : String
  deriving Repr, DecidableEq

/-- A chapter as read by the markdown rebuilder. -/
structure RChapter where
  number : Int
  title : String
  sections : List RSec
  deriving Repr, DecidableEq

/-- The chapter's stored data plus its materialized markdown body, the two
pieces of per-chapter state the rebuilder touches. -/
structure ChapterState where
  chapter : RChapter
  content : String
  deriving Repr, DecidableEq

/-- `types.SectionNumber.String`: the dot-joined number. -/
def dottedNumber (n : List Int) : String :=
  String.intercalate "." (n.map toString)

/-- A run of `k` markdown heading marks. -/
def headingMarks (k : Nat) : String :=
  String.mk (List.replicate k '#')

/-- Modelled from the spec: the implementation of
`Manager.RebuildChapterMarkdown` is not among the provided source files —
only its tests (`chapter_rebuild_test.go`) and its callers
(`Exporter.ExportDocument`, `Exporter.PreviewChapter`, the handlers)
appear.  Per §4.3 it deterministically emits `# Chapter {number}: {title}`,
a blank line, then for each section in stored order a heading of
`section.level + 1` marks prefixed with the dotted section number and the
section title, a blank line, the section's persisted content, and a blank
line; an empty chapter produces only the chapter-title line (matching
`TestRebuildChapterMarkdown_EmptyChapter`'s expected
`"# Chapter 1: Empty Chapter\n\n"`). -/
def renderChapterMarkdown (ch : RChapter) : String :=
  ch.sections.foldl
    (fun acc s =>
      acc ++ headingMarks (s.level + 1) ++ " " ++ dottedNumber s.number ++ " " ++
        s.title ++ "\n\n" ++ s.content ++ "\n\n")
    ("# Chapter " ++ toString ch.number ++ ": " ++ ch.title ++ "\n\n")

/-- Modelled from the spec: `RebuildChapterMarkdown` regenerates the
chapter's materialized markdown body from its stored section data, leaving
the section data itself unchanged. -/
def rebuildChapterMarkdown (st : ChapterState) : ChapterState :=
  { st with content := renderChapterMarkdown st.chapter }

end Docgen

namespace Docgen

/-- C2 evaluation helper: the sections `[1.1, 1.2]` of chapter 1, as bare
number lists (only `section.Number` is read by the generator). -/
def c2Sections : List (List Int) := [[1, 1], [1, 2]]

/-- The empty document: no chapters, no counts, no directories. -/
def emptyDoc : DocState := ⟨[], [], []⟩

/-- One-chapter document reached by `AddChapter("Intro", nil)` on the empty
document. -/
def introDoc : DocState := (addChapter emptyDoc "Intro" none).1

/-- State after then calling `AddChapter("Setup", position=1)`. -/
def setupDoc : DocState := (addChapter introDoc "Setup" (some 1)).1

/-- A three-chapter manifest state (numbers 1, 2, 3 in order). -/
def threeChapters : DocState :=
  ⟨[⟨1, "A"⟩, ⟨2, "B"⟩, ⟨3, "C"⟩],
   [(1, ⟨0, 0, 0⟩), (2, ⟨0, 0, 0⟩), (3, ⟨0, 0, 0⟩)],
   [1, 2, 3]⟩

/-- A two-chapter manifest state. -/
def twoChapters : DocState :=
  ⟨[⟨1, "A"⟩, ⟨2, "B"⟩], [(1, ⟨0, 0, 0⟩), (2, ⟨0, 0, 0⟩)], [1, 2]⟩

end Docgen

/-- C1: the sequence `AddChapter("Intro", nil)` then
`AddChapter("Setup", position=1)` starting from the empty document — both
calls succeed — leaves the manifest recording chapter numbers `[1, 1]`:
`AddChapter` renames storage directories but never shifts the `Number`
fields already in `manifest.Document.Chapters`, so the recorded numbers are
not a dense ascending sequence `1..2` (the number 1 is duplicated). -/
theorem c1_addChapter_breaks_density :
    Docgen.setupDoc.chapters.map Docgen.Chapter.number = [1, 1] ∧
    ¬ Docgen.denseAscending
        (Docgen.setupDoc.chapters.map Docgen.Chapter.number) := by
  refine ⟨by decide, by decide⟩

/-- C4: `AddChapter("Setup", position=1)` on a one-chapter document whose
chapter 1 has recorded count `c`: afterwards the old chapter's recorded
number is still 1 (not 2), the new chapter is also numbered 1, the
chapter-count entry for key 1 is overwritten with the zero count (the old
count `c` is lost), and no entry is re-keyed to 2 — only the storage
directory was renamed from 1 to 2.  The claim requires the old chapter's
recorded number and count entry to shift to 2. -/
theorem c4_addChapter_manifest_not_shifted (c : Docgen.ChapterCount) :
    let st : Docgen.DocState := ⟨[⟨1, "Intro"⟩], [(1, c)], [1]⟩
    let st' := (Docgen.addChapter st "Setup" (some 1)).1
    st'.chapters = [⟨1, "Intro"⟩, ⟨1, "Setup"⟩] ∧
    Docgen.lookupCount st'.counts 1 = some ⟨0, 0, 0⟩ ∧
    Docgen.lookupCount st'.counts 2 = none ∧
    st'.dirs = [2, 1] := by
  refine ⟨rfl, rfl, rfl, rfl⟩

/-- C3: `MoveChapter(from=3, to=1)` on a three-chapter document succeeds,
but the chapters end reordered with their recorded numbers `[3, 1, 2]` and
the storage directories untouched: the "full renumbering pass" is a call to
`renumberChapters` with offset 0, which returns immediately, so nothing is
renumbered to `[1, 2, 3]`. -/
theorem c3_moveChapter_no_renumbering :
    Docgen.moveChapter Docgen.threeChapters 3 1 =
      .ok ⟨[⟨3, "C"⟩, ⟨1, "A"⟩, ⟨2, "B"⟩],
           Docgen.threeChapters.counts, [1, 2, 3]⟩ ∧
    [⟨3, "C"⟩, ⟨1, "A"⟩, ⟨2, "B"⟩].map Docgen.Chapter.number = [3, 1, 2] ∧
    ([3, 1, 2] : List Int) ≠ [1, 2, 3] := by
  refine ⟨by decide, by decide, by decide⟩

namespace Docgen

/-- Removing a figure whose identifier occurs first at the given spot:
`removeFigure` yields its sequence and the list without it. -/
theorem removeFigure_append (pre post : List Figure) (f : Figure)
    (hpre : ∀ g ∈ pre, g.id ≠ f.id) :
    removeFigure (pre ++ f :: post) f.id = some (f.sequence, pre ++ post) := by
  induction pre with
  | nil => simp [removeFigure]
  | cons g pre ih =>
      have hg : g.id ≠ f.id := hpre g (by simp)
      have ih' := ih (fun x hx => hpre x (by simp [hx]))
      simp [removeFigure, hg, ih']

/-- `sectionNumbersEqual` decides list equality. -/
theorem sectionNumbersEqual_iff (a b : List Int) :
    sectionNumbersEqual a b = true ↔ a = b := by
  induction a generalizing b with
  | nil => cases b <;> simp [sectionNumbersEqual]
  | cons x xs ih =>
      cases b with
      | nil => simp [sectionNumbersEqual]
      | cons y ys => simp [sectionNumbersEqual, Bool.and_eq_true, ih]

/-- Removing a section whose number occurs first at the given spot. -/
theorem removeSection_append (pre post : List Sec) (sec : Sec) (n : List Int)
    (hsec : sec.number = n) (hpre : ∀ t ∈ pre, t.number ≠ n) :
    removeSection (pre ++ sec :: post) n = some (pre ++ post) := by
  induction pre with
  | nil => simp [removeSection, sectionNumbersEqual_iff, hsec]
  | cons g pre ih =>
      have hg : g.number ≠ n := hpre g (by simp)
      have ih' := ih (fun t ht => hpre t (by simp [ht]))
      simp [removeSection, sectionNumbersEqual_iff, hg, ih']

/-- `prefixLoop d n k` succeeds exactly when positions `1 .. k` exist in
`n` and agree with `d`. -/
theorem prefixLoop_iff (d n : List Int) (k : Nat) :
    prefixLoop d n k = true ↔
      ∀ j, 1 ≤ j → j ≤ k → j < n.length ∧ n.getD j 0 = d.getD j 0 := by
  induction k with
  | zero =>
      simp only [prefixLoop, true_iff]
      intro j h1 h2
      exact absurd (h1.trans h2) (by omega)
  | succ k ih =>
      simp only [prefixLoop, Bool.and_eq_true, decide_eq_true_eq, beq_iff_eq, ih]
      constructor
      · rintro ⟨h, hlen, heq⟩ j h1 h2
        by_cases hj : j ≤ k
        · exact h j h1 hj
        · have hj' : j = k + 1 := by omega
          subst hj'
          exact ⟨hlen, heq⟩
      · intro h
        exact ⟨fun j h1 hj => h j h1 (by omega),
          (h (k + 1) (by omega) (by omega)).1,
          (h (k + 1) (by omega) (by omega)).2⟩

/-- The per-section renumbering of `Manager.renumberSectionsAfterDeletion`
equals the specification's characterization: a number is decremented at the
deleted level exactly when (a) it is longer than the deleted number's
depth, (b) it agrees with the deleted number at every earlier position, and
(c) its value at the deleted level strictly exceeds the deleted one's. -/
theorem renumberNumber_spec (s n : List Int) (hs : 2 ≤ s.length) :
    renumberNumber s n =
      if n.length > s.length - 1 ∧
          (∀ j < s.length - 1, n.getD j 0 = s.getD j 0) ∧
          n.getD (s.length - 1) 0 > s.getD (s.length - 1) 0 then
        n.set (s.length - 1) (n.getD (s.length - 1) 0 - 1)
      else n := by
  by_cases hC : n.length > s.length - 1 ∧
      (∀ j < s.length - 1, n.getD j 0 = s.getD j 0) ∧
      n.getD (s.length - 1) 0 > s.getD (s.length - 1) 0
  · rw [if_pos hC]
    obtain ⟨hlen, hpre, hgt⟩ := hC
    have hchap : n.getD 0 0 = s.getD 0 0 := hpre 0 (by omega)
    have hloop : prefixLoop s n (s.length - 1 - 1) = true := by
      rw [prefixLoop_iff]
      intro j h1 h2
      exact ⟨by omega, hpre j (by omega)⟩
    unfold renumberNumber
    rw [if_pos ⟨hlen, hchap⟩, if_pos ⟨hloop, hlen⟩, if_pos hgt]
  · rw [if_neg hC]
    unfold renumberNumber
    split_ifs with h1 h2 h3
    · exfalso
      apply hC
      refine ⟨h1.1, ?_, h3⟩
      intro j hj
      rcases Nat.eq_zero_or_pos j with hj0 | hj1
      · subst hj0; exact h1.2
      · exact ((prefixLoop_iff s n (s.length - 1 - 1)).mp h2.1 j hj1
          (by omega)).2
    · rfl
    · rfl
    · rfl

end Docgen

/-- C7: `DeleteSection` on a section list in which the target number `s`
first occurs at the given section removes exactly that section, and then
every remaining section whose number (a) has length greater than the depth
of `s`, (b) shares the identical prefix with `s` up to the deleted level,
and (c) has a value at the deleted level strictly greater than `s`'s value
there, has that value decremented by one; every other section keeps its
number unchanged. -/
theorem c7_deleteSection_renumbers (s : List Int) (pre post : List Docgen.Sec)
    (sec : Docgen.Sec) (hs : 2 ≤ s.length) (hsec : sec.number = s)
    (hpre : ∀ t ∈ pre, t.number ≠ s) :
    Docgen.deleteSection (pre ++ sec :: post) s =
      some ((pre ++ post).map (fun t =>
        if t.number.length > s.length - 1 ∧
            (∀ j < s.length - 1, t.number.getD j 0 = s.getD j 0) ∧
            t.number.getD (s.length - 1) 0 > s.getD (s.length - 1) 0 then
          { t with number :=
              t.number.set (s.length - 1) (t.number.getD (s.length - 1) 0 - 1) }
        else t)) := by
  have hrem := Docgen.removeSection_append pre post sec s hsec hpre
  have hlen2 : ¬ s.length < 2 := by omega
  simp only [Docgen.deleteSection, hrem, Docgen.renumberSectionsAfterDeletion,
    if_neg hlen2]
  have hpt : ∀ t : Docgen.Sec,
      ({ t with number := Docgen.renumberNumber s t.number } : Docgen.Sec) =
        (if t.number.length > s.length - 1 ∧
            (∀ j < s.length - 1, t.number.getD j 0 = s.getD j 0) ∧
            t.number.getD (s.length - 1) 0 > s.getD (s.length - 1) 0 then
          { t with number :=
              t.number.set (s.length - 1) (t.number.getD (s.length - 1) 0 - 1) }
        else t) := by
    intro t
    rw [Docgen.renumberNumber_spec s t.number hs]
    by_cases h : t.number.length > s.length - 1 ∧
        (∀ j < s.length - 1, t.number.getD j 0 = s.getD j 0) ∧
        t.number.getD (s.length - 1) 0 > s.getD (s.length - 1) 0
    · rw [if_pos h, if_pos h]
    · rw [if_neg h, if_neg h]
  simp only [hpt]

/-- C7 witness: chapter 2 holds sections `2.1, 2.1.1, 2.1.2, 2.2`; deleting
`2.1.1` leaves `2.1` and `2.2` untouched and renumbers `2.1.2` to `2.1.1`. -/
theorem c7_deleteSection_renumbers_witness :
    Docgen.deleteSection
      [⟨[2, 1], "s1", "c1"⟩, ⟨[2, 1, 1], "s2", "c2"⟩,
       ⟨[2, 1, 2], "s3", "c3"⟩, ⟨[2, 2], "s4", "c4"⟩]
      [2, 1, 1] =
      some [⟨[2, 1], "s1", "c1"⟩, ⟨[2, 1, 1], "s3", "c3"⟩,
            ⟨[2, 2], "s4", "c4"⟩] := by
  have h := c7_deleteSection_renumbers [2, 1, 1] [⟨[2, 1], "s1", "c1"⟩]
    [⟨[2, 1, 2], "s3", "c3"⟩, ⟨[2, 2], "s4", "c4"⟩] ⟨[2, 1, 1], "s2", "c2"⟩
    (by decide) rfl (by decide)
  exact h.trans (by decide)

/-- C10: a section whose number strictly extends the deleted number `s`
(has `s` as a proper prefix) is left entirely unchanged by the
post-deletion renumbering — it is neither deleted nor reparented — while,
concretely, deleting `1.2` from `{1.1, 1.2, 1.2.1, 1.3}` keeps the orphan
`1.2.1` as is and renumbers the sibling `1.3` to `1.2`, which then shares
the orphan's prefix. -/
theorem c10_orphaned_child_unchanged (s t : List Int) (h2 : 2 ≤ s.length)
    (_ht : t ≠ []) :
    Docgen.renumberNumber s (s ++ t) = s ++ t ∧
    Docgen.deleteSection
      [⟨[1, 1], "a", "ca"⟩, ⟨[1, 2], "b", "cb"⟩,
       ⟨[1, 2, 1], "c", "cc"⟩, ⟨[1, 3], "d", "cd"⟩]
      [1, 2] =
      some [⟨[1, 1], "a", "ca"⟩, ⟨[1, 2, 1], "c", "cc"⟩,
            ⟨[1, 2], "d", "cd"⟩] := by
  constructor
  · rw [Docgen.renumberNumber_spec s (s ++ t) h2, if_neg]
    rintro ⟨hlen, -, hgt⟩
    have hslt : s.length - 1 < s.length := by omega
    rw [List.getD_append s t 0 (s.length - 1) hslt] at hgt
    omega
  · decide

/-- C10 witness: the orphan case instantiated at `s = [1,2]`, `t = [1]` —
deleting section `1.2` leaves the child `1.2.1` unchanged. -/
theorem c10_orphaned_child_unchanged_witness :
    Docgen.renumberNumber [1, 2] ([1, 2] ++ [1]) = [1, 2] ++ [1] ∧
    Docgen.deleteSection
      [⟨[1, 1], "a", "ca"⟩, ⟨[1, 2], "b", "cb"⟩,
       ⟨[1, 2, 1], "c", "cc"⟩, ⟨[1, 3], "d", "cd"⟩]
      [1, 2] =
      some [⟨[1, 1], "a", "ca"⟩, ⟨[1, 2, 1], "c", "cc"⟩,
            ⟨[1, 2], "d", "cd"⟩] :=
  c10_orphaned_child_unchanged [1, 2] [1] (by decide) (by decide)

/-- C5: on a chapter-2 figure list with sequences `{1, 3}`, `AddImage`
assigns the new figure sequence `len + 1 = 3` — duplicating the existing
identifier `fig-2.3` — whereas the repository's own `generateFigureSequence`
(which `AddImage` never calls) yields `max + 1 = 4` as the claim requires. -/
theorem c5_addImage_len_not_max :
    let gapFigures : List Docgen.Figure :=
      [⟨"fig-2.1", 2, 1, "first"⟩, ⟨"fig-2.3", 2, 3, "third"⟩]
    (Docgen.addImage 2 gapFigures "new").2 = "fig-2.3" ∧
    (Docgen.addImage 2 gapFigures "new").1.map Docgen.Figure.sequence = [1, 3, 3] ∧
    Docgen.generateFigureSequence gapFigures = 4 := by
  refine ⟨by decide, by decide, by decide⟩

/-- C6: `DeleteImage` on a figure list in which the target identifier first
occurs at the given figure removes exactly that figure, and every remaining
figure with a greater sequence has its sequence decremented by one and its
identifier regenerated as `fig-{chapter}.{sequence}`; all other figures are
unchanged.  `c` is the chapter number parsed out of the identifier. -/
theorem c6_deleteImage_renumbers (c : Int) (pre post : List Docgen.Figure)
    (f : Docgen.Figure)
    (hparse : Docgen.parseFigureIDChapter f.id = some c)
    (hpre : ∀ g ∈ pre, g.id ≠ f.id) :
    Docgen.deleteImage (pre ++ f :: post) f.id =
      some ((pre ++ post).map (fun g =>
        if g.sequence > f.sequence then
          { g with sequence := g.sequence - 1
                   id := Docgen.genFigureID c (g.sequence - 1) }
        else g)) := by
  unfold Docgen.deleteImage
  rw [hparse, Docgen.removeFigure_append pre post f hpre]
  rfl

/-- C6 witness: chapter 2 holds `fig-2.1, fig-2.2, fig-2.3`; deleting
`fig-2.2` leaves `fig-2.1` untouched and renumbers the old `fig-2.3` to
`fig-2.2`. -/
theorem c6_deleteImage_renumbers_witness :
    Docgen.deleteImage
      [⟨"fig-2.1", 2, 1, "a"⟩, ⟨"fig-2.2", 2, 2, "b"⟩, ⟨"fig-2.3", 2, 3, "c"⟩]
      "fig-2.2" =
      some [⟨"fig-2.1", 2, 1, "a"⟩, ⟨"fig-2.2", 2, 2, "c"⟩] := by
  have h := c6_deleteImage_renumbers 2 [⟨"fig-2.1", 2, 1, "a"⟩]
    [⟨"fig-2.3", 2, 3, "c"⟩] ⟨"fig-2.2", 2, 2, "b"⟩ (by decide) (by decide)
  exact h.trans (by decide)

/-- C8: the markdown rebuilder is idempotent — rebuilding twice with
unchanged section data produces byte-identical chapter content (the
rebuild reads only the stored section data, never the materialized body) —
and an empty chapter produces exactly the chapter-title line followed by a
blank line. -/
theorem c8_rebuild_idempotent (st : Docgen.ChapterState) (n : Int)
    (ti co : String) :
    Docgen.rebuildChapterMarkdown (Docgen.rebuildChapterMarkdown st) =
      Docgen.rebuildChapterMarkdown st ∧
    (Docgen.rebuildChapterMarkdown ⟨⟨n, ti, []⟩, co⟩).content =
      "# Chapter " ++ toString n ++ ": " ++ ti ++ "\n\n" :=
  ⟨rfl, rfl⟩

/-- C9: `Manager.MoveChapter` panics on malformed input instead of
returning a validation error: with `fromPos = 0` on a two-chapter document,
the position check (`fromPos > len` / `toPos > len`) passes, and the code
evaluates `manifest.Document.Chapters[-1]` — a Go runtime index-out-of-range
panic — before any validation rejects the input. -/
theorem c9_moveChapter_panics_on_zero :
    Docgen.moveChapter Docgen.twoChapters 0 2 = .indexOutOfRange := by
  decide

/-- C2: on chapter 1 holding sections `[1,1]` and `[1,2]`,
`generateNextSectionNumber` at level 1 returns `[1,2]` — a duplicate of the
existing section 1.2 — because its scan loop starts at `parts[0]`, the
leading chapter component, rather than at the first in-section position.
The claim (and the repository's own `TestGenerateNextSectionNumber_Sequential`)
require `[1,3]`. -/
theorem c2_generateNextSectionNumber_duplicates :
    Docgen.generateNextSectionNumber 1 Docgen.c2Sections 1 = [1, 2] ∧
    [1, 2] ∈ Docgen.c2Sections ∧
    Docgen.generateNextSectionNumber 1 Docgen.c2Sections 1 ≠ [1, 3] := by
  refine ⟨by decide, by decide, by decide⟩
